import Mathlib

/-!
Verification of the ClassiFi classroom-management backend core: the
submission lifecycle (versioning, latest-flag tracking, validation order,
deadline and file-size gating), the enrollment join/leave workflow, and the
class-code generation engine.  Every definition below is a shallow embedding
of the corresponding Python function; the database session is modelled as
explicit lists of rows, timestamps as integers, and randomness as an explicit
stream of indices.
-/

namespace ClassiFi

/-- Row of the `submissions` table (`repositories/models/submission.py`).
The server-set `submitted_at` timestamp is irrelevant to the properties
proved here and is omitted. -/
structure Submission where
  id : Nat
  assignment_id : Nat
  student_id : Nat
  file_name : String
  file_path : String
  file_size : Nat
  submission_number : Nat
  is_latest : Bool
deriving DecidableEq

/-- Row of the `enrollments` table (`repositories/models/enrollment.py`);
`enrolled_at` omitted. -/
structure Enrollment where
  id : Nat
  student_id : Nat
  class_id : Nat
deriving DecidableEq

/-- Row of the `assignments` table (`repositories/models/assignment.py`).
`programming_language` is kept as its string value ("python" / "java");
`deadline` is an integer timestamp; `created_at` omitted. -/
structure Assignment where
  id : Nat
  class_id : Nat
  assignment_name : String
  descr : String
  programming_language : String
  deadline : Int
  allow_resubmission : Bool
  is_active : Bool
deriving DecidableEq

/-- Row of the `classes` table (`repositories/models/class_model.py`);
`created_at` omitted.  Note there is no stored `is_checked` column. -/
structure Class where
  id : Nat
  teacher_id : Nat
  class_name : String
  class_code : String
  descr : Option String
  is_active : Bool
deriving DecidableEq

/-! ### Generic insertion sort (stands in for the SQL ORDER BY clauses) -/

/-- Insert into a list sorted by the boolean relation `le`. -/
def insertBy {α : Type} (le : α → α → Bool) (x : α) : List α → List α
  | [] => [x]
  | y :: ys => if le x y then x :: y :: ys else y :: insertBy le x ys

/-- Insertion sort by the boolean relation `le`. -/
def sortBy {α : Type} (le : α → α → Bool) : List α → List α
  | [] => []
  | x :: xs => insertBy le x (sortBy le xs)

/-- The WHERE clause shared by the per-pair submission queries. -/
def pairMatch (aid sid : Nat) (r : Submission) : Bool :=
  r.assignment_id == aid && r.student_id == sid

/-- All rows of a given (assignment, student) pair, in table order. -/
def pairRows (db : List Submission) (aid sid : Nat) : List Submission :=
  db.filter (pairMatch aid sid)

/-- `SubmissionRepository.get_submission_history`: the pair's rows ordered by
`submission_number` ascending. -/
def get_submission_history (db : List Submission) (aid sid : Nat) :
    List Submission :=
  sortBy (fun a b => a.submission_number ≤ b.submission_number)
    (pairRows db aid sid)

/-- `SubmissionRepository.check_submission_exists`. -/
def check_submission_exists (db : List Submission) (aid sid : Nat) : Bool :=
  db.any (pairMatch aid sid)

/-- Set the `is_latest` flag of one row. -/
def setLatest (v : Bool) (r : Submission) : Submission :=
  { r with is_latest := v }

/-- `SubmissionRepository._update_is_latest_flags`: one UPDATE setting
`is_latest` on every row of the pair. -/
def update_is_latest_flags (db : List Submission) (aid sid : Nat) (v : Bool) :
    List Submission :=
  db.map (fun r => if pairMatch aid sid r then setLatest v r else r)

/-- `SubmissionRepository.create_submission`: computes
`submission_number = count of existing rows + 1`, flips the prior rows'
`is_latest` to false when any exist, and inserts the new row with
`is_latest = true`.  Returns the new table contents and the new row. -/
def create_submission (db : List Submission) (nextId aid sid : Nat)
    (file_name file_path : String) (file_size : Nat) :
    List Submission × Submission :=
  let existing := get_submission_history db aid sid
  let submission_number := existing.length + 1
  let db1 := if existing.isEmpty then db
    else update_is_latest_flags db aid sid false
  let sub : Submission :=
    { id := nextId, assignment_id := aid, student_id := sid,
      file_name := file_name, file_path := file_path, file_size := file_size,
      submission_number := submission_number, is_latest := true }
  (db1 ++ [sub], sub)

/-- The latest-submission invariant for one pair's rows: exactly one row is
flagged latest, and that row's `submission_number` is the row count and the
maximum number among the pair's rows. -/
def latestOk (rows : List Submission) : Prop :=
  (rows.filter (fun r => r.is_latest)).length = 1 ∧
  ∀ r ∈ rows, r.is_latest = true →
    r.submission_number = rows.length ∧
      ∀ q ∈ rows, q.submission_number ≤ r.submission_number

/-- The latest-submission invariant over the whole table. -/
def latestInvariant (db : List Submission) : Prop :=
  ∀ aid sid, pairRows db aid sid ≠ [] → latestOk (pairRows db aid sid)

/-- `SubmissionService.MAX_FILE_SIZE = 10 * 1024 * 1024`. -/
def MAX_FILE_SIZE : Nat := 10 * 1024 * 1024

/-- `SubmissionService.ALLOWED_EXTENSIONS` as a lookup with default `[]`. -/
def ALLOWED_EXTENSIONS (lang : String) : List String :=
  if lang = "python" then [".py", ".ipynb"]
  else if lang = "java" then [".java", ".jar"]
  else []

/-- Split a character list at every occurrence of `sep` (the behaviour of
`str.split(sep)` on the name's characters). -/
def splitOnChar (sep : Char) : List Char → List (List Char)
  | [] => [[]]
  | c :: cs =>
    let rest := splitOnChar sep cs
    if c = sep then [] :: rest
    else
      match rest with
      | [] => [[c]]
      | p :: ps => (c :: p) :: ps

/-- ASCII lowercasing of a string, character by character (the behaviour of
`str.lower()` on the inputs this system handles). -/
def lowerString (s : String) : String :=
  String.mk (s.toList.map Char.toLower)

/-- `pathlib.Path(filename).suffix` for a plain file name: the extension
from the last dot, empty for names with no dot, a trailing dot, or a
leading-dot-only hidden file. -/
def pathSuffix (filename : String) : String :=
  match splitOnChar '.' filename.toList with
  | [] => ""
  | [_] => ""
  | parts =>
    let ext := parts.getLastD []
    if ext = [] then ""
    else if parts.length = 2 ∧ parts.headD ['x'] = [] then ""
    else String.mk ('.' :: ext)

/-- `SubmissionService._validate_file_extension`: lowercases the suffix and
the language, checks membership in the allow-list, and returns
`(is_valid, error_message)`. -/
def validate_file_extension (filename programming_language : String) :
    Bool × String :=
  let file_ext := lowerString (pathSuffix filename)
  let allowed := ALLOWED_EXTENSIONS (lowerString programming_language)
  if !(allowed.contains file_ext) then
    (false, "Invalid file type. Expected " ++ String.intercalate ", " allowed
      ++ " for " ++ programming_language)
  else
    (true, "")

/-- `AssignmentRepository.get_assignment_by_id`. -/
def get_assignment_by_id (l : List Assignment) (aid : Nat) :
    Option Assignment :=
  l.find? (fun a => a.id == aid)

/-- `EnrollmentRepository.check_enrollment_exists`. -/
def check_enrollment_exists (l : List Enrollment) (sid cid : Nat) : Bool :=
  l.any (fun e => e.student_id == sid && e.class_id == cid)

/-- The outcome of `SubmissionService.submit_assignment`, one constructor per
`return False, message` branch (named after the spec's error taxonomy) plus
the success case. -/
inductive SubmitResult where
  | success (sub : Submission)
  | notFound
  | inactive
  | notEnrolled
  | deadlinePassed
  | resubmissionNotAllowed
  | fileTooLarge
  | fileEmpty
  | invalidFileType
deriving DecidableEq

/-- Whether a `SubmitResult` is the success case. -/
def SubmitResult.isOk : SubmitResult → Bool
  | .success _ => true
  | _ => false

/-- The durable state `submit_assignment` reads and writes: the three tables
it touches plus the current clock reading (`datetime.now(timezone.utc)`). -/
structure ServiceState where
  assignments : List Assignment
  enrollments : List Enrollment
  submissions : List Submission
  now : Int
deriving DecidableEq

/-- `SubmissionService.submit_assignment`, with the uploaded file abstracted
to its byte count and name (only those are inspected) and the storage key of
`_save_file` made deterministic (its uuid component is irrelevant here).
The nine steps appear in source order; every error branch returns the state
unchanged. -/
def submit_assignment (st : ServiceState) (aid sid : Nat) (file_size : Nat)
    (file_name : String) (nextId : Nat) : SubmitResult × ServiceState :=
  match get_assignment_by_id st.assignments aid with
  | none => (.notFound, st)
  | some assignment =>
    if assignment.is_active = false then (.inactive, st)
    else if check_enrollment_exists st.enrollments sid assignment.class_id
        = false then (.notEnrolled, st)
    else if assignment.deadline < st.now then (.deadlinePassed, st)
    else if check_submission_exists st.submissions aid sid
        && !assignment.allow_resubmission then (.resubmissionNotAllowed, st)
    else if file_size > MAX_FILE_SIZE then (.fileTooLarge, st)
    else if file_size = 0 then (.fileEmpty, st)
    else if (validate_file_extension file_name
        assignment.programming_language).1 = false then (.invalidFileType, st)
    else
      let file_path := "assignments/" ++ toString aid ++ "/students/"
        ++ toString sid ++ "/" ++ file_name
      let res := create_submission st.submissions nextId aid sid file_name
        file_path file_size
      (.success res.2, { st with submissions := res.1 })

/-- `EnrollmentRepository.get_enrollment`. -/
def get_enrollment (es : List Enrollment) (sid cid : Nat) :
    Option Enrollment :=
  es.find? (fun e => e.student_id == sid && e.class_id == cid)

/-- Deletion of one specific row (`db.delete(enrollment)`). -/
def removeRow : List Enrollment → Enrollment → List Enrollment
  | [], _ => []
  | x :: xs, e => if x = e then xs else x :: removeRow xs e

/-- `EnrollmentRepository.delete_enrollment`: looks the row up and deletes
it, returning whether a row was found. -/
def delete_enrollment (es : List Enrollment) (sid cid : Nat) :
    Bool × List Enrollment :=
  match get_enrollment es sid cid with
  | none => (false, es)
  | some e => (true, removeRow es e)

/-- `StudentDashboardService.leave_class`: explicit NotEnrolled failure when
no row exists, otherwise delete. -/
def leave_class (es : List Enrollment) (sid cid : Nat) :
    Bool × List Enrollment :=
  if check_enrollment_exists es sid cid = false then (false, es)
  else
    let res := delete_enrollment es sid cid
    if res.1 then (true, res.2) else (false, res.2)

/-! ### Class service and class-code generation
(`services/services/class_service.py`,
`repositories/repositories/class_repository.py`) -/

/-- `string.ascii_uppercase + string.digits`. -/
def classCodeChars : List Char :=
  "ABCDEFGHIJKLMNOPQRSTUVWXYZ0123456789".toList

/-- `ClassRepository.get_class_by_code`: no filter on `is_active`. -/
def get_class_by_code (classes : List Class) (code : String) : Option Class :=
  classes.find? (fun c => c.class_code == code)

/-- `ClassRepository.check_class_code_exists`: hits active and inactive
classes alike. -/
def check_class_code_exists (classes : List Class) (code : String) : Bool :=
  (get_class_by_code classes code).isSome

/-- One candidate code,
`''.join(random.choice(chars) for _ in range(length))`, with the random
source modelled as a stream `pick` of indices (reduced mod the alphabet
size); `ctr` is the position already consumed in the stream. -/
def makeCode (pick : Nat → Nat) (ctr length : Nat) : String :=
  String.mk ((List.range length).map
    (fun i => classCodeChars.getD (pick (ctr + i) % classCodeChars.length)
      'A'))

/-- The `for _ in range(max_attempts)` loop of
`ClassService.generate_unique_class_code`: up to the given number of
attempts at this length, returning the first candidate that does not
collide. -/
def code_attempts (classes : List Class) (pick : Nat → Nat)
    (length ctr : Nat) : Nat → Option String
  | 0 => none
  | n + 1 =>
    let code := makeCode pick ctr length
    if check_class_code_exists classes code then
      code_attempts classes pick length (ctr + length) n
    else some code

/-- `ClassService.generate_unique_class_code` (default length 6,
`max_attempts = 100`, recursing with `length + 1` on exhaustion).  The
Python recursion is unbounded; `fuel` bounds its depth in this model and
`none` stands for not terminating within that depth. -/
def generate_unique_class_code (classes : List Class) (pick : Nat → Nat) :
    Nat → Nat → Nat → Option String
  | 0, _, _ => none
  | fuel + 1, length, ctr =>
    match code_attempts classes pick length ctr 100 with
    | some code => some code
    | none =>
      generate_unique_class_code classes pick fuel (length + 1)
        (ctr + 100 * length)

/-- `ClassService.create_class`, reduced to the choice of class code (the
insert itself always succeeds in the repository).  `supplied` is the
caller's optional `class_code`; Python's `if not class_code` treats `None`
and the empty string alike as absent.  Returns the code the class is
created with, `none` when the generator did not terminate within fuel. -/
def create_class_code (classes : List Class) (pick : Nat → Nat) (fuel : Nat)
    (supplied : Option String) : Option String :=
  let provided := supplied.getD ""
  let code? := if provided = "" then
      generate_unique_class_code classes pick fuel 6 0
    else some provided
  match code? with
  | none => none
  | some code =>
    if check_class_code_exists classes code then
      generate_unique_class_code classes pick fuel 6 0
    else some code

/-- `ClassRepository.get_class_by_id`. -/
def ClassRepository.get_class_by_id (classes : List Class) (cid : Nat) :
    Option Class :=
  classes.find? (fun c => c.id == cid)

/-- Outcome of `ClassService.get_class_by_id`, one constructor per return
branch. -/
inductive ClassByIdResult where
  | notFound
  | deleted
  | unauthorized
  | success (c : Class)
deriving DecidableEq

/-- Python truthiness of the optional `teacher_id` argument:
`None` and `0` are both falsy. -/
def truthyNat : Option Nat → Bool
  | none => false
  | some n => n != 0

/-- `ClassService.get_class_by_id`: the ownership check runs only when
`teacher_id` is truthy (`if teacher_id and class_obj.teacher_id != teacher_id`). -/
def ClassService.get_class_by_id (classes : List Class) (cid : Nat)
    (teacher_id : Option Nat) : ClassByIdResult :=
  match ClassRepository.get_class_by_id classes cid with
  | none => .notFound
  | some c =>
    if c.is_active = false then .deleted
    else if truthyNat teacher_id && c.teacher_id != teacher_id.getD 0 then
      .unauthorized
    else .success c

/-- The per-assignment payload built by `ClassService.get_class_assignments`
(fields irrelevant to the claims omitted).  `is_checked` exists only here,
not on `Assignment`: it is derived per read, never stored. -/
structure AssignmentView where
  id : Nat
  title : String
  deadline : Int
  allow_resubmission : Bool
  is_checked : Bool
deriving DecidableEq

/-- `AssignmentRepository.get_assignments_by_class` with its default
`active_only = True`, ordered by deadline ascending. -/
def get_assignments_by_class (assignments : List Assignment) (cid : Nat) :
    List Assignment :=
  sortBy (fun a b => a.deadline ≤ b.deadline)
    (assignments.filter (fun a => a.class_id == cid && a.is_active))

/-- `ClassService.get_class_assignments`: verifies the class exists and is
active, then builds the payload, computing `is_checked = deadline < now`
at read time. -/
def get_class_assignments (classes : List Class)
    (assignments : List Assignment) (cid : Nat) (now : Int) :
    Option (List AssignmentView) :=
  match ClassRepository.get_class_by_id classes cid with
  | none => none
  | some c =>
    if c.is_active = false then none
    else
      some ((get_assignments_by_class assignments cid).map (fun a =>
        { id := a.id, title := a.assignment_name, deadline := a.deadline,
          allow_resubmission := a.allow_resubmission,
          is_checked := decide (a.deadline < now) }))

/-! ### Concrete fixtures for witnesses and counterexamples -/

/-- An active python assignment with deadline 100 and resubmission
allowed. -/
def assignA : Assignment :=
  { id := 1, class_id := 1, assignment_name := "A1", descr := "d",
    programming_language := "python", deadline := 100,
    allow_resubmission := true, is_active := true }

/-- State well before the deadline: student 7 enrolled, no submissions. -/
def stA : ServiceState :=
  { assignments := [assignA], enrollments := [⟨1, 7, 1⟩],
    submissions := [], now := 50 }

/-- State at the instant exactly equal to the deadline. -/
def stDeadline : ServiceState :=
  { assignments := [assignA], enrollments := [⟨1, 7, 1⟩],
    submissions := [], now := 100 }

/-- State strictly after the deadline. -/
def stPast : ServiceState :=
  { assignments := [assignA], enrollments := [⟨1, 7, 1⟩],
    submissions := [], now := 200 }

/-- A class whose code is the all-A candidate, for collision scenarios. -/
def classB : Class :=
  { id := 2, teacher_id := 9, class_name := "C2", class_code := "AAAAAA",
    descr := none, is_active := true }

/-- An ordinary active class owned by teacher 9. -/
def classC : Class :=
  { id := 1, teacher_id := 9, class_name := "C1", class_code := "ABC123",
    descr := none, is_active := true }

/-! ### Theorems -/

theorem length_insertBy {α : Type} (le : α → α → Bool) (x : α) (l : List α) :
    (insertBy le x l).length = l.length + 1 := by
  induction l with
  | nil => rfl
  | cons y ys ih =>
    simp only [insertBy]
    by_cases h : le x y
    · simp [h]
    · simp [h, ih]

theorem length_sortBy {α : Type} (le : α → α → Bool) (l : List α) :
    (sortBy le l).length = l.length := by
  induction l with
  | nil => rfl
  | cons x xs ih => simp [sortBy, length_insertBy, ih]

theorem mem_insertBy {α : Type} (le : α → α → Bool) (x a : α) (l : List α) :
    a ∈ insertBy le x l ↔ a = x ∨ a ∈ l := by
  induction l with
  | nil => simp [insertBy]
  | cons y ys ih =>
    simp only [insertBy]
    by_cases h : le x y
    · simp [h]
    · simp [h, ih]
      tauto

theorem mem_sortBy {α : Type} (le : α → α → Bool) (a : α) (l : List α) :
    a ∈ sortBy le l ↔ a ∈ l := by
  induction l with
  | nil => simp [sortBy]
  | cons x xs ih => simp [sortBy, mem_insertBy, ih]

/-! ### Submission repository
(`repositories/repositories/submission_repository.py`) -/

theorem pairMatch_setLatest (aid sid : Nat) (v : Bool) (r : Submission) :
    pairMatch aid sid (setLatest v r) = pairMatch aid sid r := rfl

theorem pairRows_update_same (db : List Submission) (aid sid : Nat) (v : Bool) :
    pairRows (update_is_latest_flags db aid sid v) aid sid
      = (pairRows db aid sid).map (setLatest v) := by
  induction db with
  | nil => rfl
  | cons r db ih =>
    simp only [update_is_latest_flags, pairRows, List.map_cons,
      List.filter_cons] at *
    by_cases h : pairMatch aid sid r
    · simp [h, pairMatch_setLatest, ih]
    · simp [h, ih]

theorem pairRows_update_other (db : List Submission) (aid sid a s : Nat)
    (v : Bool) (hne : ¬(a = aid ∧ s = sid)) :
    pairRows (update_is_latest_flags db aid sid v) a s = pairRows db a s := by
  have key : ∀ r : Submission,
      (if pairMatch aid sid r then setLatest v r else r) = r ∨
        pairMatch a s r = false := by
    intro r
    by_cases h : pairMatch aid sid r
    · right
      by_contra hc
      rw [Bool.not_eq_false] at hc
      simp only [pairMatch, Bool.and_eq_true, beq_iff_eq] at h hc
      exact hne ⟨by omega, by omega⟩
    · left
      simp [h]
  induction db with
  | nil => rfl
  | cons r db ih =>
    simp only [update_is_latest_flags, pairRows, List.map_cons,
      List.filter_cons] at *
    rcases key r with hk | hk
    · rw [hk]
      by_cases h2 : pairMatch a s r
      · simp [h2, ih]
      · simp [h2, ih]
    · have hupd : pairMatch a s
          (if pairMatch aid sid r then setLatest v r else r) = false := by
        by_cases h : pairMatch aid sid r
        · simp [h, pairMatch_setLatest, hk]
        · simp [h, hk]
      simp [hupd, hk, ih]

theorem pairRows_append_single (db : List Submission) (a s : Nat)
    (x : Submission) :
    pairRows (db ++ [x]) a s
      = pairRows db a s ++ (if pairMatch a s x then [x] else []) := by
  simp only [pairRows, List.filter_append]
  by_cases h : pairMatch a s x
  · simp [h]
  · simp [h]

theorem length_history (db : List Submission) (aid sid : Nat) :
    (get_submission_history db aid sid).length = (pairRows db aid sid).length := by
  simp [get_submission_history, length_sortBy]

theorem history_isEmpty_iff (db : List Submission) (aid sid : Nat) :
    (get_submission_history db aid sid).isEmpty = true ↔
      pairRows db aid sid = [] := by
  rw [List.isEmpty_iff]
  have hl := length_history db aid sid
  constructor
  · intro hh
    rw [hh] at hl
    simp only [List.length_nil] at hl
    exact List.eq_nil_of_length_eq_zero hl.symm
  · intro hh
    rw [hh] at hl
    simp only [List.length_nil] at hl
    exact List.eq_nil_of_length_eq_zero hl

theorem filter_latest_map_false (l : List Submission) :
    (l.map (setLatest false)).filter (fun r => r.is_latest) = [] := by
  induction l with
  | nil => rfl
  | cons x xs ih => simp [setLatest, ih]

theorem create_submission_fst (db : List Submission) (nid aid sid : Nat)
    (fname fpath : String) (fsize : Nat) :
    (create_submission db nid aid sid fname fpath fsize).1 =
      (if pairRows db aid sid = [] then db
        else update_is_latest_flags db aid sid false)
      ++ [⟨nid, aid, sid, fname, fpath, fsize,
            (pairRows db aid sid).length + 1, true⟩] := by
  simp only [create_submission]
  congr 1
  · by_cases hc : pairRows db aid sid = []
    · simp [hc, (history_isEmpty_iff db aid sid).mpr hc]
    · have hne : (get_submission_history db aid sid).isEmpty = false := by
        rcases Bool.eq_false_or_eq_true
            ((get_submission_history db aid sid).isEmpty) with ht | hf
        · exact absurd ((history_isEmpty_iff _ _ _).mp ht) hc
        · exact hf
      simp [hne, hc]
  · simp [length_history]

theorem le_length_of_latestOk (rows : List Submission) (h : latestOk rows) :
    ∀ q ∈ rows, q.submission_number ≤ rows.length := by
  obtain ⟨h1, h2⟩ := h
  have hfne : rows.filter (fun r => r.is_latest) ≠ [] := by
    intro hq
    rw [hq] at h1
    simp at h1
  obtain ⟨r0, hr0⟩ := List.exists_mem_of_ne_nil _ hfne
  obtain ⟨hr0m, hr0l⟩ := List.mem_filter.mp hr0
  obtain ⟨hnum, hmax⟩ := h2 r0 hr0m (by simpa using hr0l)
  intro q hq
  exact le_of_le_of_eq (hmax q hq) hnum

theorem latestOk_single (r : Submission) (hl : r.is_latest = true)
    (hn : r.submission_number = 1) : latestOk [r] := by
  constructor
  · simp [hl]
  · intro x hx hxl
    have hx' : x = r := by simpa using hx
    subst hx'
    constructor
    · simpa using hn
    · intro q hq
      have hq' : q = x := by simpa using hq
      subst hq'
      exact le_refl _

/-- C1: for every (assignment_id, student_id) pair with N ≥ 1 submission
rows, exactly one row has `is_latest = true` and its `submission_number`
equals N, the maximum; this invariant is preserved by every call to
`create_submission` (which computes the number as count + 1, flips prior
rows' `is_latest` to false, and inserts the new row flagged latest). -/
theorem create_submission_preserves_latest_invariant
    (db : List Submission) (nid aid sid : Nat) (fname fpath : String)
    (fsize : Nat) (h : latestInvariant db) :
    latestInvariant (create_submission db nid aid sid fname fpath fsize).1 := by
  intro a s hps
  rw [create_submission_fst] at hps ⊢
  by_cases hpair : a = aid ∧ s = sid
  · obtain ⟨ha, hs⟩ := hpair
    subst ha
    subst hs
    rw [pairRows_append_single]
    have hmatch : pairMatch a s
        (⟨nid, a, s, fname, fpath, fsize,
          (pairRows db a s).length + 1, true⟩ : Submission) = true := by
      simp [pairMatch]
    simp only [hmatch, reduceIte]
    by_cases hempty : pairRows db a s = []
    · rw [if_pos hempty, hempty]
      simp only [List.nil_append]
      exact latestOk_single _ rfl rfl
    · rw [if_neg hempty, pairRows_update_same]
      have hOk := h a s hempty
      have hle := le_length_of_latestOk _ hOk
      constructor
      · rw [List.filter_append, filter_latest_map_false]
        simp
      · intro r hr hlat
        rcases List.mem_append.mp hr with hm | hm
        · obtain ⟨q0, hq0, rfl⟩ := List.mem_map.mp hm
          simp [setLatest] at hlat
        · have hr' : r = ⟨nid, a, s, fname, fpath, fsize,
              (pairRows db a s).length + 1, true⟩ := by simpa using hm
          subst hr'
          constructor
          · simp
          · intro q hq
            rcases List.mem_append.mp hq with hm2 | hm2
            · obtain ⟨q0, hq0, rfl⟩ := List.mem_map.mp hm2
              have : q0.submission_number ≤ (pairRows db a s).length :=
                hle q0 hq0
              simp only [setLatest]
              omega
            · have hq' : q = ⟨nid, a, s, fname, fpath, fsize,
                  (pairRows db a s).length + 1, true⟩ := by simpa using hm2
              subst hq'
              exact le_refl _
  · rw [pairRows_append_single] at hps ⊢
    have hmatch : pairMatch a s
        (⟨nid, aid, sid, fname, fpath, fsize,
          (pairRows db aid sid).length + 1, true⟩ : Submission) = false := by
      by_contra hc
      rw [Bool.not_eq_false] at hc
      simp only [pairMatch, Bool.and_eq_true, beq_iff_eq] at hc
      exact hpair ⟨hc.1.symm, hc.2.symm⟩
    have hdb1 : pairRows (if pairRows db aid sid = [] then db
        else update_is_latest_flags db aid sid false) a s = pairRows db a s := by
      by_cases hempty : pairRows db aid sid = []
      · rw [if_pos hempty]
      · rw [if_neg hempty]
        exact pairRows_update_other db aid sid a s false hpair
    rw [hdb1] at hps ⊢
    simp only [hmatch, Bool.false_eq_true, if_false, List.append_nil] at hps ⊢
    exact h a s hps

/-- Witness for C1 at a concrete input: the empty table satisfies the
invariant, and so does the table after one `create_submission` call. -/
theorem create_submission_preserves_latest_invariant_witness :
    latestInvariant (create_submission [] 1 2 3 "hw1.py" "p" 500).1 := by
  have hbase : latestInvariant ([] : List Submission) := by
    intro a s hps
    exact absurd rfl hps
  exact create_submission_preserves_latest_invariant [] 1 2 3 "hw1.py" "p" 500
    hbase

/-! ### Submission service
(`services/services/submission_service.py`) -/

theorem submit_assignment_state_unchanged (st : ServiceState)
    (aid sid file_size nextId : Nat) (file_name : String) :
    (submit_assignment st aid sid file_size file_name nextId).2 = st ∨
      ∃ sub, (submit_assignment st aid sid file_size file_name nextId).1
        = SubmitResult.success sub := by
  unfold submit_assignment
  cases get_assignment_by_id st.assignments aid with
  | none => exact Or.inl rfl
  | some a =>
    dsimp only
    repeat' split
    all_goals first
      | exact Or.inl rfl
      | exact Or.inr ⟨_, rfl⟩

/-- C2: `submit_assignment` validates in the fixed source order — assignment
exists, assignment active, student enrolled, deadline not passed,
resubmission allowed, file size in bounds, extension allowed — with the
first failing check determining the returned error, no state change on any
error path, and the row written through `create_submission` only after all
checks pass.  In particular an empty file with a wrong extension yields
FileEmpty (the size clause needs no extension hypothesis). -/
theorem submit_assignment_validation_order (st : ServiceState)
    (aid sid file_size nextId : Nat) (file_name : String) :
    ((submit_assignment st aid sid file_size file_name nextId).1.isOk = false →
      (submit_assignment st aid sid file_size file_name nextId).2 = st) ∧
    (get_assignment_by_id st.assignments aid = none →
      (submit_assignment st aid sid file_size file_name nextId).1
        = SubmitResult.notFound) ∧
    (∀ a, get_assignment_by_id st.assignments aid = some a →
      (a.is_active = false →
        (submit_assignment st aid sid file_size file_name nextId).1
          = SubmitResult.inactive) ∧
      (a.is_active = true →
        check_enrollment_exists st.enrollments sid a.class_id = false →
        (submit_assignment st aid sid file_size file_name nextId).1
          = SubmitResult.notEnrolled) ∧
      (a.is_active = true →
        check_enrollment_exists st.enrollments sid a.class_id = true →
        a.deadline < st.now →
        (submit_assignment st aid sid file_size file_name nextId).1
          = SubmitResult.deadlinePassed) ∧
      (a.is_active = true →
        check_enrollment_exists st.enrollments sid a.class_id = true →
        ¬ a.deadline < st.now →
        check_submission_exists st.submissions aid sid = true →
        a.allow_resubmission = false →
        (submit_assignment st aid sid file_size file_name nextId).1
          = SubmitResult.resubmissionNotAllowed) ∧
      (a.is_active = true →
        check_enrollment_exists st.enrollments sid a.class_id = true →
        ¬ a.deadline < st.now →
        (check_submission_exists st.submissions aid sid
          && !a.allow_resubmission) = false →
        file_size > MAX_FILE_SIZE →
        (submit_assignment st aid sid file_size file_name nextId).1
          = SubmitResult.fileTooLarge) ∧
      (a.is_active = true →
        check_enrollment_exists st.enrollments sid a.class_id = true →
        ¬ a.deadline < st.now →
        (check_submission_exists st.submissions aid sid
          && !a.allow_resubmission) = false →
        file_size = 0 →
        (submit_assignment st aid sid file_size file_name nextId).1
          = SubmitResult.fileEmpty) ∧
      (a.is_active = true →
        check_enrollment_exists st.enrollments sid a.class_id = true →
        ¬ a.deadline < st.now →
        (check_submission_exists st.submissions aid sid
          && !a.allow_resubmission) = false →
        0 < file_size → file_size ≤ MAX_FILE_SIZE →
        (validate_file_extension file_name a.programming_language).1 = false →
        (submit_assignment st aid sid file_size file_name nextId).1
          = SubmitResult.invalidFileType) ∧
      (a.is_active = true →
        check_enrollment_exists st.enrollments sid a.class_id = true →
        ¬ a.deadline < st.now →
        (check_submission_exists st.submissions aid sid
          && !a.allow_resubmission) = false →
        0 < file_size → file_size ≤ MAX_FILE_SIZE →
        (validate_file_extension file_name a.programming_language).1 = true →
        submit_assignment st aid sid file_size file_name nextId
          = (SubmitResult.success
              (create_submission st.submissions nextId aid sid file_name
                ("assignments/" ++ toString aid ++ "/students/"
                  ++ toString sid ++ "/" ++ file_name) file_size).2,
             { st with submissions :=
                (create_submission st.submissions nextId aid sid file_name
                  ("assignments/" ++ toString aid ++ "/students/"
                    ++ toString sid ++ "/" ++ file_name) file_size).1 }))) := by
  refine ⟨?_, ?_, ?_⟩
  · intro hok
    rcases submit_assignment_state_unchanged st aid sid file_size nextId
        file_name with h | ⟨sub, hsub⟩
    · exact h
    · rw [hsub] at hok
      simp [SubmitResult.isOk] at hok
  · intro h
    unfold submit_assignment
    rw [h]
  · intro a hfind
    refine ⟨?_, ?_, ?_, ?_, ?_, ?_, ?_, ?_⟩
    · intro hact
      unfold submit_assignment
      rw [hfind]
      dsimp only
      rw [if_pos hact]
    · intro hact henr
      unfold submit_assignment
      rw [hfind]
      dsimp only
      rw [if_neg (by simp [hact]), if_pos henr]
    · intro hact henr hdl
      unfold submit_assignment
      rw [hfind]
      dsimp only
      rw [if_neg (by simp [hact]), if_neg (by simp [henr]), if_pos hdl]
    · intro hact henr hdl hsub hres
      unfold submit_assignment
      rw [hfind]
      dsimp only
      rw [if_neg (by simp [hact]), if_neg (by simp [henr]), if_neg hdl,
        if_pos (by simp [hsub, hres])]
    · intro hact henr hdl hres hbig
      unfold submit_assignment
      rw [hfind]
      dsimp only
      rw [if_neg (by simp [hact]), if_neg (by simp [henr]), if_neg hdl,
        if_neg (by simp [hres]), if_pos hbig]
    · intro hact henr hdl hres hsz
      unfold submit_assignment
      rw [hfind]
      dsimp only
      rw [if_neg (by simp [hact]), if_neg (by simp [henr]), if_neg hdl,
        if_neg (by simp [hres]),
        if_neg (by rw [hsz]; exact Nat.not_lt_zero _), if_pos hsz]
    · intro hact henr hdl hres h0 hle hext
      unfold submit_assignment
      rw [hfind]
      dsimp only
      rw [if_neg (by simp [hact]), if_neg (by simp [henr]), if_neg hdl,
        if_neg (by simp [hres]), if_neg (by omega), if_neg (by omega),
        if_pos hext]
    · intro hact henr hdl hres h0 hle hext
      unfold submit_assignment
      rw [hfind]
      dsimp only
      rw [if_neg (by simp [hact]), if_neg (by simp [henr]), if_neg hdl,
        if_neg (by simp [hres]), if_neg (by omega), if_neg (by omega),
        if_neg (by simp [hext])]

/-! ### Enrollment: leave-class workflow
(`repositories/repositories/enrollment_repository.py` and
`backend-python-deprecated/services/services/student_dashboard_service.py`) -/

/-- Witness for C2 at a concrete input: on a valid active assignment with
the student enrolled and the deadline ahead, an empty file with a wrong
extension is rejected as FileEmpty, not InvalidFileType. -/
theorem submit_assignment_validation_order_witness :
    (submit_assignment stA 1 7 0 "hw.txt" 1).1 = SubmitResult.fileEmpty := by
  have h := (submit_assignment_validation_order stA 1 7 0 1 "hw.txt").2.2
    assignA (by decide)
  exact h.2.2.2.2.2.1 rfl (by decide) (by decide) (by decide) rfl

/-- C3 counterexample: with `now` exactly equal to the deadline, the claim
says the submission is rejected with DeadlinePassed (now is not strictly
before the deadline), but `submit_assignment` accepts it — the code only
rejects when `assignment.deadline < current_time`. -/
theorem submit_at_deadline_claim_false :
    ¬ ((submit_assignment stDeadline 1 7 500 "hw1.py" 1).1
        = SubmitResult.deadlinePassed
      ↔ ¬ (stDeadline.now < assignA.deadline)) := by
  decide

/-- C3 (amended): for a found, active assignment with the student enrolled,
submit fails with DeadlinePassed iff the current time is strictly after the
deadline (`assignment.deadline < now`); a submission at the instant exactly
equal to the deadline passes the deadline check. -/
theorem submit_deadlinePassed_iff (st : ServiceState)
    (aid sid file_size nextId : Nat) (file_name : String) (a : Assignment)
    (hfind : get_assignment_by_id st.assignments aid = some a)
    (hact : a.is_active = true)
    (henr : check_enrollment_exists st.enrollments sid a.class_id = true) :
    ((submit_assignment st aid sid file_size file_name nextId).1
        = SubmitResult.deadlinePassed ↔ a.deadline < st.now) := by
  constructor
  · intro hres
    by_contra hd
    unfold submit_assignment at hres
    rw [hfind] at hres
    dsimp only at hres
    rw [if_neg (by simp [hact]), if_neg (by simp [henr]), if_neg hd] at hres
    repeat' split at hres
    all_goals simp_all
  · intro hd
    unfold submit_assignment
    rw [hfind]
    dsimp only
    rw [if_neg (by simp [hact]), if_neg (by simp [henr]), if_pos hd]

/-- Witness for the amended C3: strictly after the deadline the submission
is rejected with DeadlinePassed. -/
theorem submit_deadlinePassed_iff_witness :
    (submit_assignment stPast 1 7 500 "hw1.py" 1).1
      = SubmitResult.deadlinePassed :=
  (submit_deadlinePassed_iff stPast 1 7 500 1 "hw1.py" assignA (by decide)
    rfl (by decide)).mpr (by decide)

/-- C4: for any submit call whose checks 1–5 pass, a file of exactly
10,485,760 bytes passes the size validation, 10,485,761 bytes is rejected
with FileTooLarge, and 0 bytes is rejected with FileEmpty. -/
theorem submit_file_size_boundary (st : ServiceState)
    (aid sid nextId : Nat) (file_name : String) (a : Assignment)
    (hfind : get_assignment_by_id st.assignments aid = some a)
    (hact : a.is_active = true)
    (henr : check_enrollment_exists st.enrollments sid a.class_id = true)
    (hdl : ¬ a.deadline < st.now)
    (hres : (check_submission_exists st.submissions aid sid
      && !a.allow_resubmission) = false) :
    ((submit_assignment st aid sid 10485760 file_name nextId).1
        ≠ SubmitResult.fileTooLarge ∧
      (submit_assignment st aid sid 10485760 file_name nextId).1
        ≠ SubmitResult.fileEmpty) ∧
    (submit_assignment st aid sid 10485761 file_name nextId).1
      = SubmitResult.fileTooLarge ∧
    (submit_assignment st aid sid 0 file_name nextId).1
      = SubmitResult.fileEmpty := by
  refine ⟨⟨?_, ?_⟩, ?_, ?_⟩
  · unfold submit_assignment
    rw [hfind]
    dsimp only
    rw [if_neg (by simp [hact]), if_neg (by simp [henr]), if_neg hdl,
      if_neg (by simp [hres]), if_neg (by decide), if_neg (by decide)]
    split <;> simp
  · unfold submit_assignment
    rw [hfind]
    dsimp only
    rw [if_neg (by simp [hact]), if_neg (by simp [henr]), if_neg hdl,
      if_neg (by simp [hres]), if_neg (by decide), if_neg (by decide)]
    split <;> simp
  · unfold submit_assignment
    rw [hfind]
    dsimp only
    rw [if_neg (by simp [hact]), if_neg (by simp [henr]), if_neg hdl,
      if_neg (by simp [hres]), if_pos (by decide)]
  · unfold submit_assignment
    rw [hfind]
    dsimp only
    rw [if_neg (by simp [hact]), if_neg (by simp [henr]), if_neg hdl,
      if_neg (by simp [hres]), if_neg (by decide), if_pos rfl]

/-- Witness for C4: the oversized file is rejected with FileTooLarge on the
concrete valid state. -/
theorem submit_file_size_boundary_witness :
    (submit_assignment stA 1 7 10485761 "hw1.py" 1).1
      = SubmitResult.fileTooLarge :=
  (submit_file_size_boundary stA 1 7 1 "hw1.py" assignA (by decide) rfl
    (by decide) (by decide) (by decide)).2.1

/-- C8: extension validation is case-insensitive on the extension — the
validation outcome depends on the file name only through the lowercased
suffix, and both `HW1.PY` and `hw1.py` are accepted for a python
assignment. -/
theorem validate_file_extension_case_insensitive (fn1 fn2 : String)
    (h : lowerString (pathSuffix fn1) = lowerString (pathSuffix fn2))
    (lang : String) :
    (validate_file_extension fn1 lang).1
        = (validate_file_extension fn2 lang).1 ∧
      (validate_file_extension "HW1.PY" "python").1 = true ∧
      (validate_file_extension "hw1.py" "python").1 = true := by
  refine ⟨?_, by decide, by decide⟩
  simp only [validate_file_extension]
  rw [h]

/-- Witness for C8: `HW1.PY` and `hw1.py` have the same lowercased suffix
and validate identically. -/
theorem validate_file_extension_case_insensitive_witness :
    lowerString (pathSuffix "HW1.PY") = lowerString (pathSuffix "hw1.py") ∧
      (validate_file_extension "HW1.PY" "python").1
        = (validate_file_extension "hw1.py" "python").1 :=
  ⟨by decide,
    (validate_file_extension_case_insensitive "HW1.PY" "hw1.py" (by decide)
      "python").1⟩

/-! ### Class-code generation: C5 -/

theorem getD_mem_of_lt {α : Type} (l : List α) (n : Nat) (d : α)
    (h : n < l.length) : l.getD n d ∈ l := by
  rw [List.getD_eq_getElem l d h]
  exact List.getElem_mem h

theorem makeCode_length (pick : Nat → Nat) (ctr length : Nat) :
    (makeCode pick ctr length).length = length := by
  simp only [makeCode]
  show (List.map _ (List.range length)).length = length
  simp

theorem makeCode_chars (pick : Nat → Nat) (ctr length : Nat) :
    ∀ c ∈ (makeCode pick ctr length).toList, c ∈ classCodeChars := by
  intro c hc
  have hc' : c ∈ (List.range length).map
      (fun i => classCodeChars.getD
        (pick (ctr + i) % classCodeChars.length) 'A') := hc
  obtain ⟨i, _, rfl⟩ := List.mem_map.mp hc'
  apply getD_mem_of_lt
  apply Nat.mod_lt
  decide

theorem code_attempts_spec (classes : List Class) (pick : Nat → Nat)
    (length ctr attempts : Nat) (code : String)
    (h : code_attempts classes pick length ctr attempts = some code) :
    check_class_code_exists classes code = false ∧
      ∃ k, k < attempts ∧ code = makeCode pick (ctr + k * length) length := by
  induction attempts generalizing ctr with
  | zero => simp [code_attempts] at h
  | succ n ih =>
    rw [code_attempts] at h
    by_cases hex : check_class_code_exists classes (makeCode pick ctr length)
        = true
    · rw [if_pos hex] at h
      obtain ⟨hfresh, k, hk, hcode⟩ := ih (ctr + length) h
      refine ⟨hfresh, k + 1, by omega, ?_⟩
      rw [hcode]
      congr 1
      ring
    · rw [if_neg hex] at h
      have hc := Option.some.inj h
      subst hc
      refine ⟨by simpa using hex, 0, by omega, by simp⟩

theorem generate_unique_class_code_spec (classes : List Class)
    (pick : Nat → Nat) (fuel length ctr : Nat) (code : String)
    (h : generate_unique_class_code classes pick fuel length ctr
      = some code) :
    check_class_code_exists classes code = false ∧
      length ≤ code.length ∧
      ∀ c ∈ code.toList, c ∈ classCodeChars := by
  induction fuel generalizing length ctr with
  | zero => simp [generate_unique_class_code] at h
  | succ f ih =>
    rw [generate_unique_class_code] at h
    cases hatt : code_attempts classes pick length ctr 100 with
    | some c0 =>
      rw [hatt] at h
      have hc := Option.some.inj h
      subst hc
      obtain ⟨hfresh, k, _, hcode⟩ := code_attempts_spec _ _ _ _ _ _ hatt
      refine ⟨hfresh, ?_, ?_⟩
      · rw [hcode, makeCode_length]
      · rw [hcode]
        exact makeCode_chars _ _ _
    | none =>
      rw [hatt] at h
      obtain ⟨hfresh, hlen, hchars⟩ := ih (length + 1) (ctr + 100 * length) h
      exact ⟨hfresh, by omega, hchars⟩

/-- C5: `generate_unique_class_code` produces a code of uppercase letters
and digits that does not match any existing class code — active or inactive
— at the instant of the existence check; it tries at most 100 candidates at
the current length (any candidate accepted at this length is one of the
first 100), and when all 100 collide it recurses with length + 1. -/
theorem generate_unique_class_code_correct (classes : List Class)
    (pick : Nat → Nat) (fuel length ctr : Nat) :
    (∀ code,
      generate_unique_class_code classes pick fuel length ctr = some code →
        check_class_code_exists classes code = false ∧
          length ≤ code.length ∧ ∀ c ∈ code.toList, c ∈ classCodeChars) ∧
    (∀ code, code_attempts classes pick length ctr 100 = some code →
      ∃ k, k < 100 ∧ code = makeCode pick (ctr + k * length) length ∧
        check_class_code_exists classes code = false) ∧
    (code_attempts classes pick length ctr 100 = none →
      generate_unique_class_code classes pick (fuel + 1) length ctr
        = generate_unique_class_code classes pick fuel (length + 1)
            (ctr + 100 * length)) := by
  refine ⟨?_, ?_, ?_⟩
  · intro code h
    exact generate_unique_class_code_spec classes pick fuel length ctr code h
  · intro code h
    obtain ⟨hfresh, k, hk, hcode⟩ := code_attempts_spec _ _ _ _ _ _ h
    exact ⟨k, hk, hcode, hfresh⟩
  · intro hnone
    rw [generate_unique_class_code, hnone]

/-- Witness for C5: with a constant random stream every length-6 candidate
is "AAAAAA" and collides with `classB`, so the generator escalates to
length 7 and returns the fresh "AAAAAAA". -/
theorem generate_unique_class_code_correct_witness :
    generate_unique_class_code [classB] (fun _ => 0) 2 6 0 = some "AAAAAAA" ∧
      check_class_code_exists [classB] "AAAAAAA" = false ∧
      6 ≤ ("AAAAAAA" : String).length := by
  refine ⟨by decide, ?_, ?_⟩
  · exact ((generate_unique_class_code_correct [classB] (fun _ => 0) 2 6 0).1
      "AAAAAAA" (by decide)).1
  · exact ((generate_unique_class_code_correct [classB] (fun _ => 0) 2 6 0).1
      "AAAAAAA" (by decide)).2.1

/-- C10: when `create_class` receives a caller-supplied class code that
already exists, it does not fail and does not use the supplied code — it
silently generates a fresh unique code (whenever the generator terminates)
and creates the class with that code. -/
theorem create_class_duplicate_code_regenerates (classes : List Class)
    (pick : Nat → Nat) (fuel : Nat) (s g : String)
    (hs : s ≠ "")
    (hex : check_class_code_exists classes s = true)
    (hgen : generate_unique_class_code classes pick fuel 6 0 = some g) :
    create_class_code classes pick fuel (some s) = some g ∧
      check_class_code_exists classes g = false ∧ g ≠ s := by
  have hfresh :=
    (generate_unique_class_code_spec classes pick fuel 6 0 g hgen).1
  refine ⟨?_, hfresh, ?_⟩
  · simp only [create_class_code, Option.getD, if_neg hs]
    rw [if_pos hex, hgen]
  · intro heq
    rw [heq] at hfresh
    rw [hfresh] at hex
    exact Bool.false_ne_true hex

/-- Witness for C10: supplying `classB`'s existing code "AAAAAA" makes
`create_class` fall back to the freshly generated "BBBBBB". -/
theorem create_class_duplicate_code_regenerates_witness :
    create_class_code [classB] (fun _ => 1) 1 (some "AAAAAA")
        = some "BBBBBB" ∧
      check_class_code_exists [classB] "BBBBBB" = false ∧
      ("BBBBBB" : String) ≠ "AAAAAA" :=
  create_class_duplicate_code_regenerates [classB] (fun _ => 1) 1 "AAAAAA"
    "BBBBBB" (by decide) (by decide) (by decide)

/-- C9: `get_class_by_id` runs its Unauthorized check only when the supplied
teacher_id is truthy — for `None` or `0` the ownership comparison is skipped
and any existing active class is returned regardless of its owner, while a
truthy non-owner id is rejected. -/
theorem get_class_by_id_truthiness (classes : List Class) (cid : Nat)
    (c : Class)
    (hfind : ClassRepository.get_class_by_id classes cid = some c)
    (hact : c.is_active = true) :
    ClassService.get_class_by_id classes cid none
        = ClassByIdResult.success c ∧
      ClassService.get_class_by_id classes cid (some 0)
        = ClassByIdResult.success c ∧
      ∀ t, t ≠ 0 → c.teacher_id ≠ t →
        ClassService.get_class_by_id classes cid (some t)
          = ClassByIdResult.unauthorized := by
  refine ⟨?_, ?_, ?_⟩
  · unfold ClassService.get_class_by_id
    rw [hfind]
    dsimp only
    rw [if_neg (by simp [hact]), if_neg (by simp [truthyNat])]
  · unfold ClassService.get_class_by_id
    rw [hfind]
    dsimp only
    rw [if_neg (by simp [hact]), if_neg (by simp [truthyNat])]
  · intro t ht hneq
    unfold ClassService.get_class_by_id
    rw [hfind]
    dsimp only
    rw [if_neg (by simp [hact]),
      if_pos (by simp [truthyNat, ht, Option.getD, hneq])]

/-- Witness for C9: `classC` is owned by teacher 9, yet the lookup with
teacher_id 0 succeeds, and with the non-owner 5 it is rejected. -/
theorem get_class_by_id_truthiness_witness :
    ClassService.get_class_by_id [classC] 1 (some 0)
        = ClassByIdResult.success classC ∧
      ClassService.get_class_by_id [classC] 1 (some 5)
        = ClassByIdResult.unauthorized :=
  ⟨(get_class_by_id_truthiness [classC] 1 classC (by decide) rfl).2.1,
    (get_class_by_id_truthiness [classC] 1 classC (by decide) rfl).2.2 5
      (by decide) (by decide)⟩

/-- C7: every assignment returned by `get_class_assignments` carries an
`is_checked` derived at read time from the supplied clock — true iff its
deadline is strictly before now; it corresponds to a stored assignment row,
and `Assignment` itself has no stored is_checked column. -/
theorem get_class_assignments_is_checked (classes : List Class)
    (assignments : List Assignment) (cid : Nat) (now : Int)
    (views : List AssignmentView)
    (h : get_class_assignments classes assignments cid now = some views) :
    ∀ v ∈ views, (v.is_checked = true ↔ v.deadline < now) ∧
      ∃ a, a ∈ assignments ∧ a.class_id = cid ∧ a.is_active = true ∧
        v.id = a.id ∧ v.deadline = a.deadline ∧
        v.is_checked = decide (a.deadline < now) := by
  unfold get_class_assignments at h
  cases hfind : ClassRepository.get_class_by_id classes cid with
  | none =>
    rw [hfind] at h
    simp at h
  | some c =>
    rw [hfind] at h
    dsimp only at h
    by_cases hact : c.is_active = false
    · rw [if_pos hact] at h
      simp at h
    · rw [if_neg hact] at h
      have hv := Option.some.inj h
      subst hv
      intro v hvm
      obtain ⟨a, ha, rfl⟩ := List.mem_map.mp hvm
      have ha' : a ∈ (assignments.filter
          (fun a => a.class_id == cid && a.is_active)) := by
        have := (mem_sortBy _ a _).mp ha
        simpa [get_assignments_by_class] using (mem_sortBy _ a _).mp ha
      obtain ⟨hmem, hp⟩ := List.mem_filter.mp ha'
      simp only [Bool.and_eq_true, beq_iff_eq] at hp
      refine ⟨by simp, a, hmem, hp.1, hp.2, rfl, rfl, rfl⟩

/-- Witness for C7: on the concrete class with one assignment (deadline 100)
read at time 50, the returned view has `is_checked = false`, matching
`deadline < now` being false. -/
theorem get_class_assignments_is_checked_witness :
    get_class_assignments [classC] [assignA] 1 50
        = some [⟨1, "A1", 100, true, false⟩] ∧
      ((⟨1, "A1", 100, true, false⟩ : AssignmentView).is_checked = true
        ↔ (⟨1, "A1", 100, true, false⟩ : AssignmentView).deadline < 50) := by
  refine ⟨by decide, ?_⟩
  exact ((get_class_assignments_is_checked [classC] [assignA] 1 50
    [⟨1, "A1", 100, true, false⟩] (by decide)) _ (by decide)).1

theorem leave_class_not_enrolled (es : List Enrollment) (sid cid : Nat)
    (h : check_enrollment_exists es sid cid = false) :
    leave_class es sid cid = (false, es) := by
  unfold leave_class
  rw [if_pos h]

theorem check_after_remove (es : List Enrollment) (sid cid : Nat)
    (e : Enrollment)
    (huniq : (es.filter
      (fun x => x.student_id == sid && x.class_id == cid)).length ≤ 1)
    (hfind : es.find? (fun x => x.student_id == sid && x.class_id == cid)
      = some e) :
    check_enrollment_exists (removeRow es e) sid cid = false := by
  induction es with
  | nil => simp at hfind
  | cons x xs ih =>
    cases hxb : (x.student_id == sid && x.class_id == cid) with
    | true =>
      have hfx : (x :: xs).find?
          (fun x => x.student_id == sid && x.class_id == cid) = some x := by
        simp [List.find?_cons, hxb]
      rw [hfx] at hfind
      have hex := Option.some.inj hfind
      subst hex
      rw [removeRow, if_pos rfl]
      have hflt : ((x :: xs).filter
          (fun x => x.student_id == sid && x.class_id == cid))
            = x :: xs.filter
              (fun x => x.student_id == sid && x.class_id == cid) := by
        simp [List.filter_cons, hxb]
      rw [hflt] at huniq
      simp only [List.length_cons] at huniq
      have hnil : xs.filter
          (fun x => x.student_id == sid && x.class_id == cid) = [] :=
        List.eq_nil_of_length_eq_zero (by omega)
      unfold check_enrollment_exists
      rw [List.any_eq_false]
      intro y hy hp
      have hyf : y ∈ xs.filter
          (fun x => x.student_id == sid && x.class_id == cid) :=
        List.mem_filter.mpr ⟨hy, hp⟩
      rw [hnil] at hyf
      simp at hyf
    | false =>
      have hfind' : xs.find?
          (fun x => x.student_id == sid && x.class_id == cid) = some e := by
        rwa [show (x :: xs).find?
            (fun x => x.student_id == sid && x.class_id == cid)
              = xs.find? (fun x => x.student_id == sid && x.class_id == cid)
          from by simp [List.find?_cons, hxb]] at hfind
      have hPe0 := List.find?_some hfind'
      have hPe : (e.student_id == sid && e.class_id == cid) = true := by
        simpa using hPe0
      have hxe : x ≠ e := by
        intro heq
        rw [heq, hPe] at hxb
        cases hxb
      have huniq' : (xs.filter
          (fun x => x.student_id == sid && x.class_id == cid)).length ≤ 1 := by
        rwa [show ((x :: xs).filter
            (fun x => x.student_id == sid && x.class_id == cid))
              = xs.filter (fun x => x.student_id == sid && x.class_id == cid)
          from by simp [List.filter_cons, hxb]] at huniq
      have hrest := ih huniq' hfind'
      rw [removeRow, if_neg hxe]
      unfold check_enrollment_exists at hrest ⊢
      simp [List.any_cons, hrest, hxb]

/-- C6: for a (student, class) pair with an existing Enrollment row (unique,
per the table's unique constraint), one `leave_class` call succeeds and
deletes the row, a second call immediately after fails with NotEnrolled,
and `leave_class` never silently succeeds when no row exists. -/
theorem leave_class_correct (es : List Enrollment) (sid cid : Nat)
    (huniq : (es.filter
      (fun e => e.student_id == sid && e.class_id == cid)).length ≤ 1) :
    (check_enrollment_exists es sid cid = false →
      leave_class es sid cid = (false, es)) ∧
    (check_enrollment_exists es sid cid = true →
      (leave_class es sid cid).1 = true ∧
      check_enrollment_exists (leave_class es sid cid).2 sid cid = false ∧
      leave_class (leave_class es sid cid).2 sid cid
        = (false, (leave_class es sid cid).2)) := by
  refine ⟨leave_class_not_enrolled es sid cid, ?_⟩
  intro hex
  have hsome : (get_enrollment es sid cid).isSome := by
    unfold get_enrollment
    rw [List.find?_isSome]
    exact List.any_eq_true.mp hex
  obtain ⟨e, he⟩ := Option.isSome_iff_exists.mp hsome
  have hleave : leave_class es sid cid = (true, removeRow es e) := by
    unfold leave_class
    rw [if_neg (by simp [hex])]
    unfold delete_enrollment
    rw [he]
    rfl
  have hafter := check_after_remove es sid cid e huniq he
  refine ⟨by rw [hleave], ?_, ?_⟩
  · rw [hleave]
    exact hafter
  · rw [hleave]
    exact leave_class_not_enrolled _ _ _ hafter

/-- Witness for C6: with the single enrollment (student 7, class 1), the
first leave succeeds and the second immediately fails. -/
theorem leave_class_correct_witness :
    (leave_class [⟨1, 7, 1⟩] 7 1).1 = true ∧
      leave_class (leave_class [⟨1, 7, 1⟩] 7 1).2 7 1
        = (false, (leave_class [⟨1, 7, 1⟩] 7 1).2) :=
  ⟨((leave_class_correct [⟨1, 7, 1⟩] 7 1 (by decide)).2 (by decide)).1,
    ((leave_class_correct [⟨1, 7, 1⟩] 7 1 (by decide)).2 (by decide)).2.2⟩

end ClassiFi
